import Mathlib

/-!
Verification development for the Multimodal AI agent application.

The Python source is shallowly embedded:
* strings are Lean `String`s, with Python `in` (substring test), `str.lower`,
  `str.strip`, slicing and `str.startswith` modelled on the character list
  (`String.data`) — for the ASCII strings this code manipulates, the
  character-level model coincides with Python's byte/str semantics;
* `os.path` functions (`join`, `dirname`, `isabs`, `normpath`) follow
  `posixpath` line by line;
* the filesystem, subprocess runner and home directory are an explicit
  environment record, and stateful agent objects are explicit state values;
* exceptions are `Except`.
-/

/-! ## Character-list string utilities (Python `str` operations) -/

/-- Model of Python's whitespace set for `str.strip` (ASCII range). -/
def pyIsSpace (c : Char) : Bool :=
  c = ' ' || c = '\t' || c = '\n' || c = '\r' || c = '\x0b' || c = '\x0c'

/-- Python `str.strip()`: drop leading and trailing whitespace. -/
def pyStrip (s : String) : String :=
  String.mk (((s.data.dropWhile pyIsSpace).reverse.dropWhile pyIsSpace).reverse)

/-- Python `str.lower()` (ASCII: `Char.toLower` maps A-Z to a-z). -/
def lowerStr (s : String) : String :=
  String.mk (s.data.map Char.toLower)

/-- Python slicing `s[n:]` (character based). -/
def sdrop (n : Nat) (s : String) : String :=
  String.mk (s.data.drop n)

/-- Truth of `isPref n h`: `n` is a leading segment of `h`
(Python `str.startswith`, on characters). -/
def isPref : List Char → List Char → Bool
  | [], _ => true
  | _ :: _, [] => false
  | a :: n, b :: h => if a = b then isPref n h else false

/-- Python `str.startswith(p)`. -/
def sstarts (s p : String) : Bool := isPref p.data s.data

/-- Truth of `hasSubCh n h`: `n` occurs contiguously inside `h`
(Python's `n in h` on strings). -/
def hasSubCh (n : List Char) : List Char → Bool
  | [] => isPref n []
  | c :: cs => isPref n (c :: cs) || hasSubCh n cs

/-- Python substring test `needle in hay`. -/
def hasSubstr (needle hay : String) : Bool := hasSubCh needle.data hay.data

theorem isPref_iff (n h : List Char) : isPref n h = true ↔ ∃ t, h = n ++ t := by
  induction n generalizing h with
  | nil => simp [isPref]
  | cons a n ih =>
    cases h with
    | nil => simp [isPref]
    | cons b h =>
      by_cases hab : a = b
      · subst hab
        simp [isPref, ih]
      · constructor
        · intro hF
          simp [isPref, if_neg hab] at hF
        · rintro ⟨t, ht⟩
          obtain ⟨hba, -⟩ := List.cons.inj ht
          exact absurd hba.symm hab

theorem hasSubCh_iff (n h : List Char) :
    hasSubCh n h = true ↔ ∃ u v, h = u ++ n ++ v := by
  induction h with
  | nil =>
    simp only [hasSubCh, isPref_iff]
    constructor
    · rintro ⟨t, ht⟩
      exact ⟨[], t, ht⟩
    · rintro ⟨u, v, huv⟩
      have hu : u = [] := by
        cases u with
        | nil => rfl
        | cons a u => simp at huv
      subst hu
      exact ⟨v, by simpa using huv⟩
  | cons c cs ih =>
    simp only [hasSubCh, Bool.or_eq_true, isPref_iff, ih]
    constructor
    · rintro (⟨t, ht⟩ | ⟨u, v, huv⟩)
      · exact ⟨[], t, by simpa using ht⟩
      · exact ⟨c :: u, v, by simp [huv]⟩
    · rintro ⟨u, v, huv⟩
      cases u with
      | nil => exact Or.inl ⟨v, by simpa using huv⟩
      | cons a u =>
        right
        have h2 : cs = u ++ n ++ v := by
          have := (List.cons.inj huv).2
          simpa using this
        exact ⟨u, v, h2⟩

/-- A substring of `s` is a substring of any character-wise image of `s`
that fixes the needle; instantiated with `Char.toLower` it shows lowercase
needles survive `str.lower()`. -/
theorem hasSubCh_map (f : Char → Char) (n h : List Char)
    (hn : n.map f = n) (hh : hasSubCh n h = true) :
    hasSubCh n (h.map f) = true := by
  rw [hasSubCh_iff] at hh ⊢
  obtain ⟨u, v, rfl⟩ := hh
  exact ⟨u.map f, v.map f, by simp [hn]⟩

theorem hasSubCh_ne_nil (n h : List Char) (hn : n ≠ [])
    (hh : hasSubCh n h = true) : h ≠ [] := by
  rw [hasSubCh_iff] at hh
  obtain ⟨u, v, rfl⟩ := hh
  intro hcontra
  rcases List.append_eq_nil.mp hcontra with ⟨h1, -⟩
  rcases List.append_eq_nil.mp h1 with ⟨-, h3⟩
  exact hn h3

/-! ## Intent extraction — `LLMController.extract_agent_action`
(src/app/controller/llm_controller.py, lines 384-420) -/

/-- Result record of `extract_agent_action`. -/
structure AgentAction where
  agent_type : String
  action : String
  content : String
deriving DecidableEq, Repr

/-- The fenced-code-block marker (three backticks), checked against the
original (non-lowercased) reply, as in the source. -/
def tripleBacktick : String := "```"

/-- Language tokens recognized next to a fenced block. -/
def coderLangs : List String := ["python", "javascript", "java", "c++"]

/-- Programming-related keywords. -/
def coderKeywords : List String := ["code", "function", "class", "programming"]

/-- Filesystem / process keywords. -/
def computerKeywords : List String :=
  ["file", "directory", "folder", "execute", "command", "terminal"]

/-- Condition of the first branch of `extract_agent_action`. -/
def coderTrigger (content : String) : Bool :=
  (hasSubstr tripleBacktick content
      && coderLangs.any (fun l => hasSubstr l (lowerStr content)))
    || coderKeywords.any (fun k => hasSubstr k (lowerStr content))

/-- Condition of the second branch of `extract_agent_action`. -/
def computerTrigger (content : String) : Bool :=
  computerKeywords.any (fun k => hasSubstr k (lowerStr content))

/-- Embedding of `LLMController.extract_agent_action`: pure heuristic classification of
an LLM reply.  Awaits nothing in the source — a deterministic function of
`content`. -/
def extract_agent_action (content : String) : AgentAction :=
  if coderTrigger content then
    ⟨"coder", "analyze_code", content⟩
  else if computerTrigger content then
    ⟨"computer", "process_command", content⟩
  else
    ⟨"assistant", "provide_information", content⟩

/-- C5 counterexample: a reply containing the programming keyword "code" is
classified to the coder agent, but the action designator produced by the
code is "analyze_code", not "analyze" as the claim states. -/
theorem c5_action_name_counterexample :
    (extract_agent_action "code").agent_type = "coder"
    ∧ (extract_agent_action "code").action = "analyze_code"
    ∧ ¬ (extract_agent_action "code").action = "analyze" := by
  refine ⟨by decide, by decide, by decide⟩

/-- C5 (amended): `extract_agent_action` is a pure deterministic function of
the reply text; a reply containing a fenced code block together with a
recognized language token, or any programming keyword, yields agent type
"coder" with action "analyze_code"; otherwise a reply containing a
filesystem/process keyword yields agent type "computer" with action
"process_command"; any other reply (e.g. "What is the capital of France?")
yields the default "assistant" designation (action "provide_information",
dispatched to no agent). -/
theorem c5_extract_intent_amended (s : String) :
    (coderTrigger s = true →
      extract_agent_action s = ⟨"coder", "analyze_code", s⟩)
    ∧ (coderTrigger s = false → computerTrigger s = true →
      extract_agent_action s = ⟨"computer", "process_command", s⟩)
    ∧ (coderTrigger s = false → computerTrigger s = false →
      extract_agent_action s = ⟨"assistant", "provide_information", s⟩)
    ∧ extract_agent_action "What is the capital of France?"
      = ⟨"assistant", "provide_information", "What is the capital of France?"⟩ := by
  refine ⟨?_, ?_, ?_, by decide⟩
  · intro h
    simp [extract_agent_action, h]
  · intro h1 h2
    simp [extract_agent_action, h1, h2]
  · intro h1 h2
    simp [extract_agent_action, h1, h2]

/-- C5 witness: the amended classification evaluated on three concrete
replies, one per branch. -/
theorem c5_extract_intent_witness :
    extract_agent_action "Here is some code"
      = ⟨"coder", "analyze_code", "Here is some code"⟩
    ∧ extract_agent_action "List the files in my Documents folder"
      = ⟨"computer", "process_command", "List the files in my Documents folder"⟩
    ∧ extract_agent_action "Hello there"
      = ⟨"assistant", "provide_information", "Hello there"⟩ :=
  ⟨(c5_extract_intent_amended _).1 (by decide),
   (c5_extract_intent_amended _).2.1 (by decide) (by decide),
   (c5_extract_intent_amended _).2.2.1 (by decide) (by decide)⟩

/-! ## Association-list model of Python `dict`
(keys are agent-type strings; reachable manager states keep keys unique) -/

/-- Python `d[k]` / `k in d` combined: first binding of `k`. -/
def alookup {α : Type} (k : String) : List (String × α) → Option α
  | [] => none
  | (k', v) :: rest => if k' = k then some v else alookup k rest

/-- Python `d[k] = v`: overwrite in place, or append when absent. -/
def aset {α : Type} (k : String) (v : α) : List (String × α) → List (String × α)
  | [] => [(k, v)]
  | (k', v') :: rest => if k' = k then (k, v) :: rest else (k', v') :: aset k v rest

/-- Python `del d[k]`: remove the first binding of `k`. -/
def aerase {α : Type} (k : String) : List (String × α) → List (String × α)
  | [] => []
  | (k', v) :: rest => if k' = k then rest else (k', v) :: aerase k rest

/-- Key uniqueness: the well-formedness that `dict`-backed states enjoy. -/
def keysUnique {α : Type} : List (String × α) → Bool
  | [] => true
  | (k, _) :: rest => rest.all (fun p => decide (p.1 ≠ k)) && keysUnique rest

theorem alookup_aset_self {α : Type} (k : String) (v : α) (l : List (String × α)) :
    alookup k (aset k v l) = some v := by
  induction l with
  | nil => simp [aset, alookup]
  | cons p rest ih =>
    obtain ⟨k', v'⟩ := p
    by_cases h : k' = k
    · simp [aset, h, alookup]
    · simp [aset, h, alookup, ih]

theorem alookup_aset_ne {α : Type} (k k' : String) (v : α) (l : List (String × α))
    (h : k' ≠ k) : alookup k' (aset k v l) = alookup k' l := by
  have h' : ¬ (k = k') := fun hh => h hh.symm
  induction l with
  | nil => simp [aset, alookup, h']
  | cons p rest ih =>
    obtain ⟨k0, v0⟩ := p
    by_cases h0 : k0 = k
    · subst h0
      simp [aset, alookup, h']
    · simp only [aset, if_neg h0, alookup]
      by_cases h1 : k0 = k'
      · simp [h1]
      · simp [h1, ih]

theorem alookup_absent {α : Type} (k : String) (l : List (String × α))
    (h : l.all (fun p => decide (p.1 ≠ k)) = true) : alookup k l = none := by
  induction l with
  | nil => rfl
  | cons p rest ih =>
    obtain ⟨k', v⟩ := p
    simp only [List.all_cons, Bool.and_eq_true, decide_eq_true_eq] at h
    simp [alookup, h.1, ih h.2]

theorem alookup_aerase_self {α : Type} (k : String) (l : List (String × α))
    (hu : keysUnique l = true) : alookup k (aerase k l) = none := by
  induction l with
  | nil => rfl
  | cons p rest ih =>
    obtain ⟨k', v⟩ := p
    simp only [keysUnique, Bool.and_eq_true] at hu
    by_cases h : k' = k
    · subst h
      simp only [aerase, if_pos rfl]
      exact alookup_absent _ _ hu.1
    · simp [aerase, h, alookup, ih hu.2]

/-! ## Agent registry and lifecycle — `AgentManager`
(src/app/agents/agent_manager.py)

An agent class is reduced to the data the manager consults: its
`auto_terminate` flag (`BaseAgent.auto_terminate` is `False` and no agent in
the repository overrides it) and whether its `cleanup()` coroutine returns
normally (the coder agent's does not, see `coder_cleanup` below).  An
instance additionally carries a creation identity token (`id`), the
spec's device for observing instance reuse; `process` is abstracted to
return that token.  `asyncio.create_task(agent.initialize())` schedules
`initialize` without running it — the scheduled task cannot run before the
current task suspends, so within `invoke_agent` the `initialize` body has
not started when `process` is entered; the model records the scheduled,
never-awaited task in `pending_inits`. -/

structure AgentClassSpec where
  auto_terminate : Bool
  cleanup_ok : Bool
deriving DecidableEq, Repr

structure AgentInstance where
  id : Nat
  auto_terminate : Bool
  cleanup_ok : Bool
deriving DecidableEq, Repr

structure ManagerState where
  agent_classes : List (String × AgentClassSpec)
  active_agents : List (String × AgentInstance)
  next_id : Nat
  pending_inits : List Nat
deriving DecidableEq, Repr

inductive MEvent
  | created (i : Nat)
  | initScheduled (i : Nat)
  | processStarted (i : Nat)
  | processReturned (i : Nat)
  | cleanupStarted (i : Nat)
deriving DecidableEq, Repr

/-- Embedding of `AgentManager.register_agent` (lines 17-23): overwrite silently. -/
def register_agent (st : ManagerState) (T : String) (cls : AgentClassSpec) :
    ManagerState :=
  { st with agent_classes := aset T cls st.agent_classes }

/-- Embedding of `AgentManager._get_or_create_agent` (lines 43-58).  The class lookup is
hoisted to the caller (`invoke_agent` has already checked registration, so
`self.agent_classes[agent_type]` cannot fail there). -/
def get_or_create_agent (st : ManagerState) (T : String) (cls : AgentClassSpec) :
    AgentInstance × ManagerState × List MEvent :=
  match alookup T st.active_agents with
  | some a => (a, st, [])
  | none =>
    let inst : AgentInstance := ⟨st.next_id, cls.auto_terminate, cls.cleanup_ok⟩
    (inst,
     { st with
        active_agents := aset T inst st.active_agents
        next_id := st.next_id + 1
        pending_inits := st.pending_inits ++ [inst.id] },
     [.created inst.id, .initScheduled inst.id])

/-- Embedding of `AgentManager.terminate_agent` (lines 60-75).  `await agent.cleanup()`
is invoked before the map entry is deleted; when `cleanup` raises, the
exception propagates and the entry is retained. -/
def terminate_agent (st : ManagerState) (T : String) :
    Except String Bool × ManagerState × List MEvent :=
  match alookup T st.active_agents with
  | none => (.ok false, st, [])
  | some a =>
    if a.cleanup_ok then
      (.ok true,
       { st with active_agents := aerase T st.active_agents },
       [.cleanupStarted a.id])
    else
      (.error "AttributeError", st, [.cleanupStarted a.id])

/-- Embedding of `AgentManager.invoke_agent` (lines 25-41): guard on registration, get or
create the instance, run `process` (abstracted to the identity token), then
auto-terminate when the agent asks for it. -/
def invoke_agent (st : ManagerState) (T : String) :
    Except String Nat × ManagerState × List MEvent :=
  match alookup T st.agent_classes with
  | none => (.error ("Unknown agent type: " ++ T), st, [])
  | some cls =>
    let (inst, st1, evs) := get_or_create_agent st T cls
    let evs := evs ++ [.processStarted inst.id, .processReturned inst.id]
    if inst.auto_terminate then
      match terminate_agent st1 T with
      | (.ok _, st2, evs2) => (.ok inst.id, st2, evs ++ evs2)
      | (.error e, st2, evs2) => (.error e, st2, evs ++ evs2)
    else
      (.ok inst.id, st1, evs)

/-- A one-registration manager state: the type "coder" registered (with the
repository-wide defaults: `auto_terminate = false`, conforming cleanup), no
live instance yet. -/
def demoState : ManagerState := ⟨[("coder", ⟨false, true⟩)], [], 0, []⟩

/-- An empty manager: nothing registered, nothing active. -/
def emptyState : ManagerState := ⟨[], [], 0, []⟩

/-- C1: on a registered type with no live instance and no auto-termination,
the first dispatch creates and stores an instance (identity token
`st.next_id`) and the second dispatch before any terminate returns the very
same token from the stored instance, constructing nothing (its trace has no
`created` event) and leaving the state untouched. -/
theorem c1_single_instance_reuse (st : ManagerState) (T : String)
    (cls : AgentClassSpec)
    (hreg : alookup T st.agent_classes = some cls)
    (hauto : cls.auto_terminate = false)
    (hfresh : alookup T st.active_agents = none) :
    (invoke_agent st T).1 = Except.ok st.next_id
    ∧ alookup T (invoke_agent st T).2.1.active_agents
        = some ⟨st.next_id, false, cls.cleanup_ok⟩
    ∧ (invoke_agent st T).2.2
        = [.created st.next_id, .initScheduled st.next_id,
           .processStarted st.next_id, .processReturned st.next_id]
    ∧ (invoke_agent (invoke_agent st T).2.1 T).1 = Except.ok st.next_id
    ∧ (invoke_agent (invoke_agent st T).2.1 T).2.1 = (invoke_agent st T).2.1
    ∧ (invoke_agent (invoke_agent st T).2.1 T).2.2
        = [.processStarted st.next_id, .processReturned st.next_id] := by
  have h1 : invoke_agent st T
      = (.ok st.next_id,
         { st with
            active_agents := aset T ⟨st.next_id, false, cls.cleanup_ok⟩ st.active_agents
            next_id := st.next_id + 1
            pending_inits := st.pending_inits ++ [st.next_id] },
         [.created st.next_id, .initScheduled st.next_id,
          .processStarted st.next_id, .processReturned st.next_id]) := by
    simp [invoke_agent, hreg, get_or_create_agent, hfresh, hauto]
  have h2 : alookup T (aset T (⟨st.next_id, false, cls.cleanup_ok⟩ : AgentInstance)
      st.active_agents) = some ⟨st.next_id, false, cls.cleanup_ok⟩ :=
    alookup_aset_self _ _ _
  refine ⟨by rw [h1], by rw [h1]; exact h2, by rw [h1], ?_, ?_, ?_⟩
  all_goals
    rw [h1]
    simp [invoke_agent, hreg, get_or_create_agent, h2]

/-- C1 witness: the reuse property at the concrete one-registration state. -/
theorem c1_single_instance_reuse_witness :
    (invoke_agent demoState "coder").1 = Except.ok 0
    ∧ (invoke_agent (invoke_agent demoState "coder").2.1 "coder").1 = Except.ok 0
    ∧ (invoke_agent (invoke_agent demoState "coder").2.1 "coder").2.2
        = [.processStarted 0, .processReturned 0] := by
  obtain ⟨p1, -, -, p4, -, p6⟩ :=
    c1_single_instance_reuse demoState "coder" ⟨false, true⟩ rfl rfl rfl
  exact ⟨p1, p4, p6⟩

/-- C2 at the failing input (first dispatch of the registered type "coder"):
`_get_or_create_agent` schedules `initialize` with `asyncio.create_task` and
never awaits it, so the dispatch trace runs `process` immediately after
scheduling — no completion of `initialize` exists before `processStarted` —
and `invoke_agent` returns with the initialize task still pending. -/
theorem c2_process_starts_before_initialize :
    (invoke_agent demoState "coder").2.2
      = [.created 0, .initScheduled 0, .processStarted 0, .processReturned 0]
    ∧ (invoke_agent demoState "coder").2.1.pending_inits = [0] := by
  decide

/-- C6: dispatch of a never-registered type fails with the Unknown-Type
error and has no side effects: the state (registry, live-instance map,
identity counter, pending initializations) is returned unchanged and the
trace is empty — no instance is created, no `initialize` is scheduled, no
`process` runs. -/
theorem c6_unknown_type_no_side_effects (st : ManagerState) (T : String)
    (h : alookup T st.agent_classes = none) :
    invoke_agent st T = (.error ("Unknown agent type: " ++ T), st, []) := by
  simp [invoke_agent, h]

/-- C6 witness: dispatching "ghost" on the empty manager. -/
theorem c6_unknown_type_witness :
    invoke_agent emptyState "ghost"
      = (.error "Unknown agent type: ghost", emptyState, []) := by
  have := c6_unknown_type_no_side_effects emptyState "ghost" rfl
  simpa using this

/-- C7: `terminate_agent` returns `false` without raising when no live
instance exists, and with a live instance (whose `cleanup` returns
normally, per the spec's "true after successful cleanup") it invokes that
instance's cleanup, deletes the map entry and returns `true`, after which
no live instance of the type remains — the next dispatch re-instantiates. -/
theorem c7_terminate_contract (st : ManagerState) (T : String) :
    (alookup T st.active_agents = none →
      terminate_agent st T = (.ok false, st, []))
    ∧ (∀ a, alookup T st.active_agents = some a → a.cleanup_ok = true →
        keysUnique st.active_agents = true →
        terminate_agent st T
          = (.ok true, { st with active_agents := aerase T st.active_agents },
             [.cleanupStarted a.id])
        ∧ alookup T (aerase T st.active_agents) = none) := by
  constructor
  · intro h
    simp [terminate_agent, h]
  · intro a ha hok hu
    exact ⟨by simp [terminate_agent, ha, hok], alookup_aerase_self T _ hu⟩

/-- C7 witness: terminate on the empty manager returns `false`; terminate of
a live instance returns `true`, runs cleanup and empties the live map. -/
theorem c7_terminate_contract_witness :
    terminate_agent emptyState "coder" = (.ok false, emptyState, [])
    ∧ terminate_agent
        ⟨[("coder", ⟨false, true⟩)], [("coder", ⟨7, false, true⟩)], 8, []⟩ "coder"
      = (.ok true, ⟨[("coder", ⟨false, true⟩)], [], 8, []⟩,
         [.cleanupStarted 7]) := by
  constructor
  · exact (c7_terminate_contract emptyState "coder").1 rfl
  · have := ((c7_terminate_contract
      ⟨[("coder", ⟨false, true⟩)], [("coder", ⟨7, false, true⟩)], 8, []⟩
      "coder").2 ⟨7, false, true⟩ rfl rfl (by decide)).1
    simpa [aerase] using this

/-! ## Retry loop — `LLMController.chat_completion`
(src/app/controller/llm_controller.py, lines 129-184)

The provider delivery `self._send_request(...)` is abstracted to an oracle
`send : Nat → Except LLMFail ρ` giving the outcome of the k-th attempt
(`k = retry_count` at the moment of the call).  `transient` stands for the
caught `(TimeoutError, ConnectionError)` pair, `permanent` for every other
exception.  Events record `event_manager.emit` calls; sleeps record the
`asyncio.sleep(1 * retry_count)` durations in seconds. -/

inductive LLMFail
  | transient
  | permanent (msg : String)
deriving DecidableEq, Repr

inductive LLMEv
  | requestStart
  | requestComplete
  | llmError
deriving DecidableEq, Repr

structure LLMOut (ρ : Type) where
  result : Except String ρ
  events : List LLMEv
  sleeps : List Nat
deriving Repr

/-- The terminal error raised after the `while` loop exits
(`max_retries = 3`). -/
def exhaustedMsg : String := "Failed to get LLM response after 3 attempts"

/-- One spin of `while retry_count < max_retries`; `fuel` is the structural
bound `3 - retry_count`, so the loop condition and the fuel run out
together. -/
def chatLoop {ρ : Type} (send : Nat → Except LLMFail ρ) :
    Nat → Nat → LLMOut ρ
  | 0, _ => ⟨.error exhaustedMsg, [], []⟩
  | fuel + 1, rc =>
    if rc < 3 then
      match send rc with
      | .ok r => ⟨.ok r, [.requestStart, .requestComplete], []⟩
      | .error .transient =>
        let rest := chatLoop send fuel (rc + 1)
        ⟨rest.result, .requestStart :: rest.events, (1 * (rc + 1)) :: rest.sleeps⟩
      | .error (.permanent m) => ⟨.error m, [.requestStart, .llmError], []⟩
    else ⟨.error exhaustedMsg, [], []⟩

/-- Embedding of `LLMController.chat_completion` from `retry_count = 0`. -/
def chat_completion {ρ : Type} (send : Nat → Except LLMFail ρ) : LLMOut ρ :=
  chatLoop send 3 0

/-- Adapter forced to always fail with a retryable error. -/
def alwaysTransient : Nat → Except LLMFail Nat := fun _ => .error .transient

/-- Adapter failing with a retryable error exactly twice, then succeeding. -/
def twoFailThenOk : Nat → Except LLMFail Nat :=
  fun k => if k < 2 then .error .transient else .ok 42

/-- C3 counterexample: with an adapter that always fails Transient, the code
makes its 3 attempts and raises the terminal error, but — contrary to the
claim — emits no error event at all on exhaustion: only the three
`llm_request_start` emissions happen (`llm_error` is emitted solely in the
non-transient branch). -/
theorem c3_no_error_event_counterexample :
    (chat_completion alwaysTransient).events
      = [.requestStart, .requestStart, .requestStart]
    ∧ ¬ LLMEv.llmError ∈ (chat_completion alwaysTransient).events
    ∧ (chat_completion alwaysTransient).result = .error exhaustedMsg :=
  ⟨rfl, by decide, rfl⟩

/-- C3 (amended): with the base unit of 1 second, a delivery failing
Transient on every attempt is tried exactly 3 times with delays of 1s then
2s before the second and third attempts (and a final 3s sleep after the
last failure), after which the terminal error is raised with no error
event emitted; a delivery failing Transient exactly twice and then
succeeding returns the success response after delays of 1s and 2s. -/
theorem c3_retry_policy_amended {ρ : Type} (send : Nat → Except LLMFail ρ) :
    ((∀ k, k < 3 → send k = .error .transient) →
      (chat_completion send).result = .error exhaustedMsg
      ∧ (chat_completion send).events
          = [.requestStart, .requestStart, .requestStart]
      ∧ (chat_completion send).sleeps = [1, 2, 3])
    ∧ (∀ r, send 0 = .error .transient → send 1 = .error .transient →
        send 2 = .ok r →
        (chat_completion send).result = .ok r
        ∧ (chat_completion send).sleeps = [1, 2]
        ∧ (chat_completion send).events
          = [.requestStart, .requestStart, .requestStart, .requestComplete]) := by
  constructor
  · intro h
    have h0 := h 0 (by omega)
    have h1 := h 1 (by omega)
    have h2 := h 2 (by omega)
    refine ⟨?_, ?_, ?_⟩ <;>
      simp [chat_completion, chatLoop, h0, h1, h2]
  · intro r h0 h1 h2
    refine ⟨?_, ?_, ?_⟩ <;>
      simp [chat_completion, chatLoop, h0, h1, h2]

/-- C3 witness: the amended retry policy evaluated on the two concrete
adapters. -/
theorem c3_retry_policy_witness :
    (chat_completion alwaysTransient).result = .error exhaustedMsg
    ∧ (chat_completion alwaysTransient).sleeps = [1, 2, 3]
    ∧ (chat_completion twoFailThenOk).result = .ok 42
    ∧ (chat_completion twoFailThenOk).sleeps = [1, 2] := by
  obtain ⟨a1, -, a3⟩ :=
    (c3_retry_policy_amended alwaysTransient).1 (fun k _ => rfl)
  obtain ⟨b1, b2, -⟩ :=
    (c3_retry_policy_amended twoFailThenOk).2 42 rfl rfl rfl
  exact ⟨a1, a3, b1, b2⟩

/-! ## Coder agent cleanup — `CoderAgent.cleanup`
(src/app/agents/coder_agent/coder_agent.py, lines 198-212)

`CoderAgent.__init__` defines exactly the attributes `logger`,
`event_manager`, `_working_dir`, `_execution_process`; `initialize`
re-assigns `_working_dir`, `_execute_code` re-assigns `_execution_process`,
and no other attribute is ever assigned, so every reachable instance
carries exactly these four attribute names.  `cleanup` begins with
`for process in self.processes:` — an attribute access outside any `try` —
and only later reaches `shutil.rmtree(self.working_dir, ignore_errors=True)`
inside a bare `try/except`.  Attribute lookup is modelled over the list of
defined names; the filesystem is the list of existing directories. -/

def coderInstanceAttrs : List String :=
  ["logger", "event_manager", "_working_dir", "_execution_process"]

/-- Python attribute access `self.<name>`. -/
def getattrCoder (attrs : List String) (name : String) : Except String Unit :=
  if name ∈ attrs then .ok ()
  else .error ("AttributeError: " ++ name)

/-- Embedding of `CoderAgent.cleanup`: iterate `self.processes` (unguarded attribute
access), then remove `self.working_dir` inside a bare `try/except`.
Returns the surviving directory list on normal return. -/
def coder_cleanup (attrs : List String) (dirs : List String) (wd : String) :
    Except String (List String) :=
  match getattrCoder attrs "processes" with
  | .error e => .error e
  | .ok _ =>
    match getattrCoder attrs "working_dir" with
    | .error _ => .ok dirs
    | .ok _ => .ok (dirs.erase wd)

/-- C4 at the failing input: on a coder instance fresh from a successful
`initialize` (working directory present on disk), `cleanup` raises
`AttributeError` on `self.processes` — the class only ever defines
`_execution_process` and `_working_dir` — so it neither tolerates the
state nor removes the working directory; the same holds for every
reachable attribute/filesystem state. -/
theorem c4_coder_cleanup_raises :
    coder_cleanup coderInstanceAttrs ["/tmp/coder_agent_x"] "/tmp/coder_agent_x"
      = .error "AttributeError: processes"
    ∧ ∀ dirs wd, coder_cleanup coderInstanceAttrs dirs wd
      = .error "AttributeError: processes" :=
  ⟨rfl, fun _ _ => rfl⟩

/-! ## Posix path functions (`os.path` used by the computer agent) -/

/-- Embedding of `os.path.isabs` (posix). -/
def isabs (p : String) : Bool := sstarts p "/"

/-- Last character is a slash. -/
def endsWithSlash (a : String) : Bool := a.data.getLast? = some '/'

/-- Embedding of `posixpath.join` for two components. -/
def pjoin (a b : String) : String :=
  if isabs b then b
  else if a = "" || endsWithSlash a then a ++ b
  else a ++ "/" ++ b

/-- Embedding of `posixpath.dirname`: everything up to the last slash, with trailing
slashes stripped unless the head is all slashes. -/
def dirname (p : String) : String :=
  let r := p.data.reverse
  let r1 := r.dropWhile (fun c => !(c = '/' : Bool))
  if r1.isEmpty then ""
  else if r1.all (fun c => (c = '/' : Bool)) then String.mk r1.reverse
  else String.mk ((r1.dropWhile (fun c => (c = '/' : Bool))).reverse)

/-- Python `str.split('/')` on characters. -/
def ssAux : List Char → List Char → List String
  | [], cur => [String.mk cur.reverse]
  | c :: rest, cur =>
    if c = '/' then String.mk cur.reverse :: ssAux rest []
    else ssAux rest (c :: cur)

/-- Component loop of `posixpath.normpath` (accumulator reversed). -/
def npAux (slashes : Nat) : List String → List String → List String
  | [], acc => acc
  | comp :: rest, acc =>
    if comp = "" || comp = "." then npAux slashes rest acc
    else if comp ≠ ".." || (slashes = 0 && acc.isEmpty)
        || (!acc.isEmpty && acc.head? = some "..") then
      npAux slashes rest (comp :: acc)
    else
      match acc with
      | [] => npAux slashes rest []
      | _ :: t => npAux slashes rest t

/-- Embedding of `posixpath.normpath`. -/
def normpath (p : String) : String :=
  if p = "" then "."
  else
    let slashes : Nat :=
      if sstarts p "//" && !(sstarts p "///") then 2
      else if sstarts p "/" then 1
      else 0
    let newComps := (npAux slashes (ssAux p.data []) []).reverse
    let res := String.mk (List.replicate slashes '/')
      ++ String.intercalate "/" newComps
    if res = "" then "." else res

/-! ## Computer agent — `ComputerAgent`
(src/app/agents/computer_agent/computer_agent.py)

The operating system is an explicit environment: `home` is
`os.path.expanduser("~")`, `node` maps a path to a directory, a file with
its content (one byte per character, as for the ASCII text the agent
reads), or nothing, and `run` gives a spawned command's
(returncode, stdout, stderr) for a command and working directory.  The
posix branch of the source is modelled (`os.name != 'nt'`; both branches
spawn the same shell call).  A state carries the directory cursor and the
spawned-process handle list; `exec_shell`'s third component lists the
subprocesses the call spawned. -/

inductive FNode
  | dir
  | file (content : List Char)
deriving DecidableEq

structure FSEnv where
  home : String
  node : String → Option FNode
  run : String → String → Int × String × String

structure ComputerState where
  base_directory : String
  current_directory : String
  processes : List String
deriving DecidableEq, Repr

/-- The fixed deny-list of `_execute_shell_command` (line 71). -/
def forbidden_commands : List String := ["rm -rf", "format", "del /f", "deltree"]

/-- Resolution of the `cd` argument (lines 78-95). -/
def cd_target (env : FSEnv) (st : ComputerState) (command : String) : String :=
  let nd := pyStrip (sdrop 3 (pyStrip command))
  if nd = "~" then env.home
  else if sstarts nd "~/" then pjoin env.home (sdrop 2 nd)
  else if nd = ".." then dirname st.current_directory
  else if isabs nd then nd
  else pjoin st.current_directory nd

/-- Embedding of `ComputerAgent._execute_shell_command` (lines 66-141). -/
def exec_shell (env : FSEnv) (st : ComputerState) (command : String) :
    String × ComputerState × List String :=
  if command = "" then ("No command provided", st, [])
  else if forbidden_commands.any (fun c => hasSubstr c (lowerStr command)) then
    ("Command rejected for security reasons", st, [])
  else if sstarts (pyStrip command) "cd " then
    let nd := cd_target env st command
    if env.node nd = some FNode.dir then
      ("Changed directory from " ++ st.current_directory ++ " to " ++ normpath nd,
       { st with current_directory := normpath nd }, [])
    else
      ("Error: Directory not found: " ++ nd, st, [])
  else
    let r := env.run command st.current_directory
    let res :=
      if r.1 = 0 then
        (if r.2.1 = "" then "Command executed successfully (no output)" else r.2.1)
      else "Error (code " ++ toString r.1 ++ "):\n" ++ r.2.2
    (res, { st with processes := st.processes ++ [command] }, [command])

/-- Embedding of `ComputerAgent._read_file` (lines 169-187). -/
def read_file (env : FSEnv) (st : ComputerState) (path : String) : String :=
  let p := if isabs path then path else pjoin st.current_directory path
  match env.node p with
  | none => "File does not exist: " ++ p
  | some FNode.dir => p ++ " is a directory, not a file"
  | some (FNode.file c) =>
    if 1048576 < c.length then
      "File too large to read entirely. First 1MB:\n\n"
        ++ String.mk (c.take 1048576)
    else String.mk c

/-- C8: a command containing a deny-list entry (in particular "rm -rf") is
rejected by `_execute_shell_command` before the subprocess branch: the
rejection string is returned, the state (cursor and process list) is
untouched, and no child process is spawned. -/
theorem c8_denylist_rejected (env : FSEnv) (st : ComputerState) (cmd d : String)
    (hd : d ∈ forbidden_commands) (hsub : hasSubstr d cmd = true) :
    exec_shell env st cmd = ("Command rejected for security reasons", st, []) := by
  have hdcases : d = "rm -rf" ∨ d = "format" ∨ d = "del /f" ∨ d = "deltree" := by
    simpa [forbidden_commands] using hd
  have hdne : d.data ≠ [] := by
    rcases hdcases with rfl | rfl | rfl | rfl <;> decide
  have hlow : d.data.map Char.toLower = d.data := by
    rcases hdcases with rfl | rfl | rfl | rfl <;> decide
  have hne : ¬ (cmd = "") := by
    intro hc
    subst hc
    exact (hasSubCh_ne_nil _ _ hdne hsub) rfl
  have hany : forbidden_commands.any (fun c => hasSubstr c (lowerStr cmd)) = true := by
    rw [List.any_eq_true]
    refine ⟨d, hd, ?_⟩
    simpa [hasSubstr, lowerStr] using hasSubCh_map Char.toLower d.data cmd.data hlow hsub
  simp [exec_shell, hne, hany]

/-- Environment and state for the computer-agent witnesses: home directory
with one existing sub-directory, cursor parked at "/start". -/
def envD : FSEnv :=
  ⟨"/home/user", fun p => if p = "/home" then some FNode.dir else none,
   fun _ _ => (0, "", "")⟩

def stD : ComputerState := ⟨"/home/user", "/start", []⟩

/-- C8 witness: "sudo rm -rf /" is rejected with no spawn and no state
change. -/
theorem c8_denylist_rejected_witness :
    exec_shell envD stD "sudo rm -rf /"
      = ("Command rejected for security reasons", stD, []) :=
  c8_denylist_rejected envD stD "sudo rm -rf /" "rm -rf" (by decide) (by decide)

/-- C9: for a path resolving to an existing regular file, `_read_file`
returns the full content when it is at most 1 MiB (1048576 bytes) long —
no truncation notice — and, beyond that, the truncation indicator followed
by exactly the first 1 MiB of the content. -/
theorem c9_read_file_cap (env : FSEnv) (st : ComputerState) (path : String)
    (c : List Char)
    (hf : env.node (if isabs path then path else pjoin st.current_directory path)
      = some (FNode.file c)) :
    (1048576 < c.length →
      read_file env st path
        = "File too large to read entirely. First 1MB:\n\n"
            ++ String.mk (c.take 1048576))
    ∧ (c.length ≤ 1048576 → read_file env st path = String.mk c) := by
  constructor
  · intro h
    simp [read_file, hf, h]
  · intro h
    simp [read_file, hf, Nat.not_lt.mpr h]

/-- Environment for the C9 witness: a 2 MiB file and a 2-byte file. -/
def envR : FSEnv :=
  ⟨"/home/user",
   fun p =>
     if p = "/big" then some (FNode.file (List.replicate 2097152 'a'))
     else if p = "/small" then some (FNode.file "hi".data)
     else none,
   fun _ _ => (0, "", "")⟩

/-- C9 witness: reading the 2 MiB file yields the notice plus the first
1048576 characters; reading the small file yields it whole. -/
theorem c9_read_file_cap_witness :
    read_file envR stD "/big"
      = "File too large to read entirely. First 1MB:\n\n"
          ++ String.mk (List.replicate 1048576 'a')
    ∧ read_file envR stD "/small" = "hi" := by
  constructor
  · have h := (c9_read_file_cap envR stD "/big" (List.replicate 2097152 'a')
      (by rfl)).1 (by rw [List.length_replicate]; norm_num)
    rw [h, List.take_replicate]
    norm_num
  · have h := (c9_read_file_cap envR stD "/small" "hi".data
      (by rfl)).2 (by decide)
    simpa using h

/-- C10: over every `_execute_shell_command` call, the current-directory
cursor either stays unchanged or becomes the normalization of a path the
environment confirmed to be an existing directory at the moment of the
change; and a `cd` command (passing the deny-list) whose resolved target
is not an existing directory leaves the state fully unchanged, spawns
nothing, and returns the directory-not-found error message. -/
theorem c10_cd_cursor_integrity (env : FSEnv) (st : ComputerState) (cmd : String) :
    ((exec_shell env st cmd).2.1.current_directory ≠ st.current_directory →
      ∃ d, env.node d = some FNode.dir
        ∧ (exec_shell env st cmd).2.1.current_directory = normpath d)
    ∧ (sstarts (pyStrip cmd) "cd " = true →
        forbidden_commands.any (fun c => hasSubstr c (lowerStr cmd)) = false →
        env.node (cd_target env st cmd) ≠ some FNode.dir →
        (exec_shell env st cmd).2.1 = st
        ∧ (exec_shell env st cmd).2.2 = []
        ∧ (exec_shell env st cmd).1
            = "Error: Directory not found: " ++ cd_target env st cmd) := by
  constructor
  · intro hch
    by_cases h1 : cmd = ""
    · exact absurd (by simp [exec_shell, h1]) hch
    · by_cases h2 : forbidden_commands.any (fun c => hasSubstr c (lowerStr cmd)) = true
      · exact absurd (by simp [exec_shell, h1, h2]) hch
      · by_cases h3 : sstarts (pyStrip cmd) "cd " = true
        · by_cases h4 : env.node (cd_target env st cmd) = some FNode.dir
          · refine ⟨cd_target env st cmd, h4, ?_⟩
            simp [exec_shell, h1, h2, h3, h4]
          · exact absurd (by simp [exec_shell, h1, h2, h3, h4]) hch
        · exact absurd (by simp [exec_shell, h1, h2, h3]) hch
  · intro h3 h2 h4
    have h1 : ¬ (cmd = "") := by
      intro hc
      subst hc
      simp [sstarts, pyStrip, isPref] at h3
    refine ⟨?_, ?_, ?_⟩ <;> simp [exec_shell, h1, h2, h3, h4]

/-- C10 witness: `cd /nope` (target absent) leaves the cursor at "/start"
and reports the error; `cd /home` moves the cursor, and the theorem
exhibits the existing directory it was checked against. -/
theorem c10_cd_cursor_integrity_witness :
    (exec_shell envD stD "cd /nope").2.1 = stD
    ∧ (exec_shell envD stD "cd /nope").1 = "Error: Directory not found: /nope"
    ∧ ∃ d, envD.node d = some FNode.dir
        ∧ (exec_shell envD stD "cd /home").2.1.current_directory = normpath d := by
  obtain ⟨hst, -, hres⟩ := (c10_cd_cursor_integrity envD stD "cd /nope").2
    (by decide) (by decide) (by decide)
  have htgt : cd_target envD stD "cd /nope" = "/nope" := by decide
  refine ⟨hst, ?_, ?_⟩
  · rw [hres, htgt]
    decide
  · exact (c10_cd_cursor_integrity envD stD "cd /home").1 (by decide)
